import Mathlib

/-
Verification of the CQL foreign-data-wrapper core: predicate classifier,
statement deparser, allow-filtering policy, type codec, and modify planning
and execution, shallowly embedded from the C sources
(scylla_deparse.c, scylla_typemap.c, scylla_fdw_modify.c,
scylla_connection.cpp).

Machine integers are modelled as Int with explicit wrapping where int32 or
int64 overflow or unsigned casts matter (the date codec and the epoch
arithmetic); C integer division, which truncates toward zero, is modelled
with Int.tdiv.
-/

/-- The PostgreSQL type OIDs the codec and deparser dispatch on, as an
enumeration.  The constructor other stands for every OID that reaches the
default branch of the C switches. -/
inductive PgType where
  | bool | int2 | int4 | int8 | float4 | float8 | numeric
  | text | varchar | bpchar | bytea | uuid
  | timestamp | timestamptz | date | time | inet
  | other (oidname : String)
deriving DecidableEq, Repr

/-- Embeds is_pushdown_safe_type from scylla_deparse.c: the whitelist of
type OIDs whose values may appear in a pushed-down predicate. -/
def is_pushdown_safe_type : PgType → Bool
  | .bool | .int2 | .int4 | .int8 | .float4 | .float8 | .numeric
  | .text | .varchar | .bpchar | .bytea | .uuid
  | .timestamp | .timestamptz | .date | .time | .inet => true
  | .other _ => false

/-- Embeds get_cql_operator from scylla_deparse.c: looks up the operator
name (and its namespace flag, true when the operator lives in pg_catalog)
and maps it to its CQL spelling, or none when unsupported. -/
def get_cql_operator (in_pg_catalog : Bool) (opname : String) : Option String :=
  if !in_pg_catalog then none
  else if opname = "=" then some "="
  else if opname = "<" then some "<"
  else if opname = ">" then some ">"
  else if opname = "<=" then some "<="
  else if opname = ">=" then some ">="
  else if opname = "<>" || opname = "!=" then some "!="
  else none

/-- Boolean operators of a BoolExpr node. -/
inductive PgBoolOp where
  | andOp | orOp | notOp
deriving DecidableEq, Repr

/-- The restriction-expression tree: the subset of PostgreSQL node kinds
the classifier inspects.  evar carries varno, varattno (attnum, possibly a
negative system attribute) and vartype; econst carries consttype, the
constisnull flag and the output-function rendering of the value; eop
carries the operator namespace flag (true for pg_catalog), the operator
name and the argument list; escalarArrayOp is a ScalarArrayOpExpr with its
useOr flag; eother stands for every node kind that reaches the default
branch of the C switch. -/
inductive PgExpr where
  | evar (varno : Nat) (varattno : Int) (vartype : PgType)
  | econst (consttype : PgType) (constisnull : Bool) (outval : String)
  | eop (in_pg_catalog : Bool) (opname : String) (args : List PgExpr)
  | ebool (op : PgBoolOp) (args : List PgExpr)
  | enulltest (arg : PgExpr)
  | erelabel (arg : PgExpr)
  | escalarArrayOp (useOr : Bool) (args : List PgExpr)
  | eother
deriving Repr

mutual

/-- Embeds scylla_is_foreign_expr from scylla_deparse.c: whether an
expression can be pushed down.  The baserel relid set is modelled as a
list of relation indexes. -/
def scylla_is_foreign_expr (relids : List Nat) : PgExpr → Bool
  | .evar varno varattno vartype =>
      relids.contains varno && decide (0 < varattno) &&
        is_pushdown_safe_type vartype
  | .econst consttype _ _ => is_pushdown_safe_type consttype
  | .eop in_pg_catalog opname args =>
      (get_cql_operator in_pg_catalog opname).isSome &&
        scylla_is_foreign_expr_all relids args
  | .ebool op args =>
      !(op = .orOp) && scylla_is_foreign_expr_all relids args
  | .enulltest _ => false
  | .erelabel arg => scylla_is_foreign_expr relids arg
  | .escalarArrayOp _ _ => false
  | .eother => false

/-- The argument loop of scylla_is_foreign_expr: every argument must be
pushable (short-circuiting, as the C foreach does). -/
def scylla_is_foreign_expr_all (relids : List Nat) : List PgExpr → Bool
  | [] => true
  | e :: es =>
      scylla_is_foreign_expr relids e && scylla_is_foreign_expr_all relids es

end

/-- Embeds scylla_classify_conditions from scylla_deparse.c: each input
condition is appended to the remote list when scylla_is_foreign_expr
accepts it and to the local list otherwise, preserving input order. -/
def scylla_classify_conditions (relids : List Nat) :
    List PgExpr → List PgExpr × List PgExpr
  | [] => ([], [])
  | c :: rest =>
      let p := scylla_classify_conditions relids rest
      if scylla_is_foreign_expr relids c then (c :: p.1, p.2)
      else (p.1, c :: p.2)

/-- Character class of the first identifier character the C code accepts
without quoting: a lowercase letter or underscore. -/
def is_lower_or_underscore (c : Char) : Bool :=
  ('a' ≤ c && c ≤ 'z') || c = '_'

/-- Character class of subsequent identifier characters the C code accepts
without quoting: lowercase letter, digit, or underscore. -/
def is_unquoted_ident_char (c : Char) : Bool :=
  ('a' ≤ c && c ≤ 'z') || ('0' ≤ c && c ≤ '9') || c = '_'

/-- Embeds the need_quotes computation of cql_quote_identifier from
scylla_deparse.c: quoting is needed when the first character is not a
lowercase letter or underscore, or when any character is not a lowercase
letter, digit, or underscore.  The empty string needs quotes because its
terminating NUL fails the first-character test. -/
def cql_ident_needs_quotes (cs : List Char) : Bool :=
  match cs with
  | [] => true
  | c :: _ =>
      !is_lower_or_underscore c || cs.any (fun p => !is_unquoted_ident_char p)

/-- The quoting loop of cql_quote_identifier: every embedded double quote
is doubled, all other characters pass through. -/
def escape_dquotes : List Char → List Char
  | [] => []
  | c :: rest =>
      if c = '"' then '"' :: '"' :: escape_dquotes rest
      else c :: escape_dquotes rest

/-- Embeds cql_quote_identifier from scylla_deparse.c (also exported as
scylla_quote_identifier): returns the identifier unchanged when no quoting
is needed, otherwise wraps it in double quotes doubling embedded double
quotes. -/
def cql_quote_identifier (s : String) : String :=
  if cql_ident_needs_quotes s.toList then
    String.mk ('"' :: (escape_dquotes s.toList ++ ['"']))
  else s

/-- Undoes the quoting loop: a doubled double quote yields one double
quote, an unpaired double quote is a parse failure.  Modelled from the
spec: the paired literal-parsing rule for quoted identifiers. -/
def undouble_dquotes : List Char → Option (List Char)
  | [] => some []
  | [c] => if c = '"' then none else some [c]
  | c :: c2 :: rest =>
      if c = '"' then
        if c2 = '"' then (undouble_dquotes rest).map (fun t => '"' :: t)
        else none
      else (undouble_dquotes (c2 :: rest)).map (fun t => c :: t)

/-- Modelled from the spec: parsing a quoted identifier back, stripping
the outer double quotes and undoing the doubling of embedded double
quotes. -/
def parse_quoted_identifier (s : String) : Option String :=
  match s.toList with
  | '"' :: rest =>
      if rest.getLast? = some '"' then
        (undouble_dquotes rest.dropLast).map String.mk
      else none
  | _ => none

/-- Modelled from the spec: the regular expression of identifiers that
need no quoting, first character a lowercase letter or underscore and
every further character a lowercase letter, digit or underscore. -/
def spec_ident_regex (s : String) : Bool :=
  match s.toList with
  | [] => false
  | c :: rest => is_lower_or_underscore c && rest.all is_unquoted_ident_char

/-- Splits a character list at commas; empty segments correspond to runs
of consecutive delimiters. -/
def split_commas : List Char → List (List Char)
  | [] => [[]]
  | c :: rest =>
      if c = ',' then [] :: split_commas rest
      else
        match split_commas rest with
        | [] => [[c]]
        | t :: ts => (c :: t) :: ts

/-- The whitespace trimming applied to each primary-key token in the C
code: leading and trailing space characters are removed. -/
def trim_spaces (cs : List Char) : List Char :=
  ((cs.dropWhile (fun c => c = ' ')).reverse.dropWhile (fun c => c = ' ')).reverse

/-- Embeds the strtok_r comma tokenization plus per-token space trimming
shared by scylla_fdw_modify.c and needs_allow_filtering: strtok_r never
yields empty tokens (runs of commas collapse), and each token is then
trimmed of spaces. -/
def parse_pk (s : String) : List String :=
  ((split_commas s.toList).filter (fun t => !t.isEmpty)).map
    (fun t => String.mk (trim_spaces t))

/-- One attribute of a relation tuple descriptor: name, type OID, and the
attisdropped flag. -/
structure PgColumn where
  attname : String
  atttypid : PgType
  attisdropped : Bool
deriving DecidableEq, Repr

/-- A foreign relation as the planner sees it: the ordered tuple
descriptor and the foreign-table catalog options (key-value pairs such as
keyspace, table, primary_key). -/
structure RelDesc where
  cols : List PgColumn
  options : List (String × String)
deriving DecidableEq, Repr

/-- Option lookup that stops at the first match, as the primary_key
searches in scylla_fdw_modify.c do (they break out of the foreach). -/
def lookup_option_first (opts : List (String × String)) (key : String) : Option String :=
  (opts.find? (fun kv => kv.1 = key)).map (fun kv => kv.2)

/-- Option lookup where the last match wins, as the keyspace and table
extraction loops do (no break, each match overwrites). -/
def lookup_option_last (opts : List (String × String)) (key : String) : Option String :=
  ((opts.filter (fun kv => kv.1 = key)).getLast?).map (fun kv => kv.2)

/-- The attribute-number search shared by the C code: the first column
whose name equals the token, one-based, or none. -/
def findAttnum (cols : List PgColumn) (colname : String) : Option Nat :=
  (cols.findIdx? (fun c => c.attname = colname)).map (fun i => i + 1)

/-- The inner loop of needs_allow_filtering from scylla_deparse.c: whether
a single remote condition counts as an equality (or IN membership) on the
partition-key attribute pk_attnum.  Only an OpExpr whose CQL operator is
the equality sign and whose first argument is a Var of our relation with
that attribute number qualifies, or a ScalarArrayOpExpr with useOr whose
first argument is such a Var. -/
def pk_cond_matches (relids : List Nat) (pk_attnum : Nat) : PgExpr → Bool
  | .eop in_pg_catalog opname args =>
      match get_cql_operator in_pg_catalog opname with
      | some cop =>
          cop = "=" &&
            (match args.head? with
             | some (.evar varno varattno _) =>
                 decide (varattno = (pk_attnum : Int)) && relids.contains varno
             | _ => false)
      | none => false
  | .escalarArrayOp useOr args =>
      useOr &&
        (match args.head? with
         | some (.evar varno varattno _) =>
             decide (varattno = (pk_attnum : Int)) && relids.contains varno
         | _ => false)
  | _ => false

/-- Embeds needs_allow_filtering from scylla_deparse.c: the flag is forced
when there are no remote conditions, when the primary_key option is NULL
or empty, or when some primary-key token that resolves to a column of the
relation has no qualifying equality condition; tokens that resolve to no
column are skipped by the C continue. -/
def needs_allow_filtering (relids : List Nat) (rel : RelDesc)
    (pk_str : Option String) (remote_conds : List PgExpr) : Bool :=
  if remote_conds.isEmpty then true
  else
    match pk_str with
    | none => true
    | some s =>
        if s = "" then true
        else
          !((parse_pk s).all (fun tok =>
              match findAttnum rel.cols tok with
              | none => true
              | some att => remote_conds.any (pk_cond_matches relids att)))

/-- Modelled from the spec: whether an expression is an equality
comparison or IN membership mentioning, on either side, the column of the
relation named colname (claim C3 wording: the column has an equality or
set-membership remote predicate). -/
def spec_eq_or_in_on_column (rel : RelDesc) (colname : String) : PgExpr → Bool
  | .eop in_pg_catalog opname args =>
      (get_cql_operator in_pg_catalog opname == some "=") &&
        args.any (fun a =>
          match a with
          | .evar _ varattno _ =>
              match findAttnum rel.cols colname with
              | some att => decide (varattno = (att : Int))
              | none => false
          | _ => false)
  | .escalarArrayOp useOr args =>
      useOr &&
        args.any (fun a =>
          match a with
          | .evar _ varattno _ =>
              match findAttnum rel.cols colname with
              | some att => decide (varattno = (att : Int))
              | none => false
          | _ => false)
  | _ => false

/-- Modelled from the spec: the allow-filtering requirement as claim C3
states it, forced exactly when the remote set is empty, the partition key
is undeclared, or some partition-key column lacks an equality or
set-membership remote predicate. -/
def spec_allow_filtering_required (rel : RelDesc)
    (pk_str : Option String) (remote_conds : List PgExpr) : Bool :=
  remote_conds.isEmpty ||
    (match pk_str with
     | none => true
     | some s =>
         (parse_pk s).any (fun tok =>
           !(remote_conds.any (spec_eq_or_in_on_column rel tok))))

/-- Wrapping of an Int into the signed 32-bit range, modelling overflow of
the C int type and the int32 cast of a uint32 value. -/
def wrap32 (x : Int) : Int :=
  (x + 2147483648) % 4294967296 - 2147483648

/-- Wrapping of an Int into the signed 64-bit range, modelling overflow of
the C int64 type. -/
def wrap64 (x : Int) : Int :=
  (x + 9223372036854775808) % 18446744073709551616 - 9223372036854775808

/-- The POSTGRES_EPOCH_JDATE macro of scylla_typemap.c: the Julian day of
2000-01-01, the reference epoch of relational timestamps and dates. -/
def POSTGRES_EPOCH_JDATE : Int := 2451545

/-- The UNIX_EPOCH_JDATE macro of scylla_typemap.c: the Julian day of
1970-01-01, the reference epoch of wire timestamps. -/
def UNIX_EPOCH_JDATE : Int := 2440588

/-- The fixed epoch offset in microseconds used by both timestamp
conversion directions in scylla_typemap.c. -/
def epoch_offset_usec : Int :=
  (POSTGRES_EPOCH_JDATE - UNIX_EPOCH_JDATE) * 86400 * 1000000

/-- The epoch offset in days used by both date conversion directions. -/
def epoch_offset_days : Int := POSTGRES_EPOCH_JDATE - UNIX_EPOCH_JDATE

/-- The value of the C expression 1 shifted left by 31 on a 32-bit
two-complement int, as produced by the compilers this code targets: the
minimum int32. -/
def c_one_shl_31 : Int := -2147483648

/-- Embeds the TIMESTAMPOID branch of scylla_convert_to_pg
(scylla_typemap.c): wire milliseconds since 1970 are scaled to
microseconds and shifted to the 2000 epoch, in int64 arithmetic. -/
def wire_ms_to_pg_timestamp (ms : Int) : Int :=
  wrap64 (wrap64 (ms * 1000) - epoch_offset_usec)

/-- Embeds the TIMESTAMPOID branch of scylla_convert_from_pg
(scylla_typemap.c): relational microseconds since 2000 are shifted to the
1970 epoch and divided by 1000 with C truncation toward zero. -/
def pg_timestamp_to_wire_ms (ts : Int) : Int :=
  Int.tdiv (wrap64 (ts + epoch_offset_usec)) 1000

/-- Embeds the DATEOID branch of scylla_convert_to_pg (scylla_typemap.c):
the uint32 wire day count is cast to int32, the bias 2 to the 31 is
subtracted (as the int32 expression value minus 1 shifted left by 31,
which wraps), and the epoch offset in days is subtracted. -/
def wire_date_to_pg_date (wire : Int) : Int :=
  wrap32 (wrap32 (wrap32 wire - c_one_shl_31) - epoch_offset_days)

/-- Embeds the DATEOID branch of scylla_convert_from_pg
(scylla_typemap.c): the epoch offset in days is added, then 1 shifted left
by 31 is added in int32 arithmetic and the result is cast to uint32. -/
def pg_date_to_wire (pg_date : Int) : Int :=
  (wrap32 (wrap32 (pg_date + epoch_offset_days) + c_one_shl_31)) % 4294967296

/-- Embeds scylla_get_decimal from scylla_connection.cpp: the wire decimal
(big-endian two-complement varint digits plus scale) is ignored and the
fixed placeholder string is returned. -/
def scylla_get_decimal (_varint : List Nat) (_scale : Int) : String := "0"

/-- Modelled from the spec: interpreting the varint bytes as a big-endian
two-complement integer. -/
def varint_to_int (bs : List Nat) : Int :=
  match bs with
  | [] => 0
  | b :: _ =>
      let n : Int := bs.foldl (fun acc d => acc * 256 + (d : Int)) 0
      if 128 ≤ b then n - (256 : Int) ^ bs.length else n

/-- Modelled from the spec: rendering digits times ten to the power of
minus scale as an exact decimal string. -/
def decimal_string (digits : Int) (scale : Int) : String :=
  if scale ≤ 0 then toString (digits * 10 ^ (-scale).toNat)
  else
    let sc := scale.toNat
    let sign := if digits < 0 then "-" else ""
    let a := digits.natAbs
    let ipart := a / 10 ^ sc
    let fpart := a % 10 ^ sc
    let fs := toString fpart
    sign ++ toString ipart ++ "." ++
      String.mk (List.replicate (sc - fs.length) '0') ++ fs

/-- Modelled from the spec: the decode a correct decimal path must
produce, the arbitrary-precision decimal string of the varint digits
scaled by the wire scale. -/
def spec_decimal_decode (varint : List Nat) (scale : Int) : String :=
  decimal_string (varint_to_int varint) scale

/-- The value side of a Datum as the modify path extracts it: integers
(also timestamps, dates, times), booleans, opaque float bit patterns, and
the string or byte renderings the conversion routines obtain from the
output functions. -/
inductive PgVal where
  | vnone
  | vbool (b : Bool)
  | vint (n : Int)
  | vfloatbits (bits : Int)
  | vtext (s : String)
  | vbytes (bs : List Nat)
  | vstrout (s : String)
deriving DecidableEq, Repr

/-- Extraction of an integer Datum (DatumGetInt16, DatumGetInt32,
DatumGetInt64, DatumGetTimestamp, DatumGetDateADT, DatumGetTimeADT). -/
def datum_int : PgVal → Int
  | .vint n => n
  | _ => 0

/-- Extraction of a boolean Datum. -/
def datum_bool : PgVal → Bool
  | .vbool b => b
  | _ => false

/-- Extraction of a float Datum as its opaque bit pattern. -/
def datum_floatbits : PgVal → Int
  | .vfloatbits b => b
  | _ => 0

/-- Extraction of a text Datum. -/
def datum_text : PgVal → String
  | .vtext s => s
  | _ => ""

/-- Extraction of a bytea Datum. -/
def datum_bytes : PgVal → List Nat
  | .vbytes bs => bs
  | _ => []

/-- Extraction of a Datum through its type output function (numeric_out,
uuid_out, inet_out, or the generic output function of the default
branch). -/
def datum_strout : PgVal → String
  | .vstrout s => s
  | .vtext s => s
  | _ => ""

/-- One driver binding call issued against a statement: the constructor
records which scylla_bind function was called, at which parameter index,
with which value. -/
inductive BindAction where
  | bnull (idx : Nat)
  | bbool (idx : Nat) (b : Bool)
  | bint32 (idx : Nat) (v : Int)
  | bint64 (idx : Nat) (v : Int)
  | bfloat (idx : Nat) (bits : Int)
  | bdouble (idx : Nat) (bits : Int)
  | bdecimal (idx : Nat) (s : String)
  | bstring (idx : Nat) (s : String)
  | bbytes (idx : Nat) (bs : List Nat)
  | buuid (idx : Nat) (s : String)
  | btimestamp (idx : Nat) (ms : Int)
  | buint32 (idx : Nat) (v : Int)
deriving DecidableEq, Repr

/-- Embeds scylla_convert_from_pg from scylla_typemap.c: when is_null is
set, scylla_bind_null is called and the function returns before the type
switch; otherwise the per-type branch converts the Datum and calls the
matching bind function. -/
def scylla_convert_from_pg (value : PgVal) (pg_type : PgType)
    (index : Nat) (is_null : Bool) : BindAction :=
  if is_null then .bnull index
  else
    match pg_type with
    | .bool => .bbool index (datum_bool value)
    | .int2 => .bint32 index (datum_int value)
    | .int4 => .bint32 index (datum_int value)
    | .int8 => .bint64 index (datum_int value)
    | .float4 => .bfloat index (datum_floatbits value)
    | .float8 => .bdouble index (datum_floatbits value)
    | .numeric => .bdecimal index (datum_strout value)
    | .text => .bstring index (datum_text value)
    | .varchar => .bstring index (datum_text value)
    | .bpchar => .bstring index (datum_text value)
    | .bytea => .bbytes index (datum_bytes value)
    | .uuid => .buuid index (datum_strout value)
    | .timestamp => .btimestamp index (pg_timestamp_to_wire_ms (datum_int value))
    | .timestamptz => .btimestamp index (pg_timestamp_to_wire_ms (datum_int value))
    | .date => .buint32 index (pg_date_to_wire (datum_int value))
    | .time => .bint64 index (wrap64 (datum_int value * 1000))
    | .inet => .bstring index (datum_strout value)
    | .other _ => .bstring index (datum_strout value)

/-- A placeholder column as List.getD default; a well-formed caller never
reaches it because the C code only passes valid attribute numbers. -/
def dummy_column : PgColumn := ⟨"", .other "invalid", true⟩

/-- The TupleDescAttr plus NameStr access pattern: the name of the
attribute with one-based number attnum. -/
def attname_at (rel : RelDesc) (attnum : Nat) : String :=
  (rel.cols.getD (attnum - 1) dummy_column).attname

/-- The TupleDescAttr access for the type OID of attribute attnum. -/
def atttypid_at (rel : RelDesc) (attnum : Nat) : PgType :=
  (rel.cols.getD (attnum - 1) dummy_column).atttypid

/-- The keyspace option as the builder loops extract it (last match
wins, NULL when absent is modelled as the empty name). -/
def rel_keyspace (rel : RelDesc) : String :=
  (lookup_option_last rel.options "keyspace").getD ""

/-- The table option as the builder loops extract it. -/
def rel_tablename (rel : RelDesc) : String :=
  (lookup_option_last rel.options "table").getD ""

/-- Embeds scylla_build_insert_query from scylla_deparse.c: quoted column
list of the target attributes and one positional placeholder per target
attribute. -/
def scylla_build_insert_query (rel : RelDesc) (target_attrs : List Nat) : String :=
  "INSERT INTO " ++ cql_quote_identifier (rel_keyspace rel) ++ "." ++
    cql_quote_identifier (rel_tablename rel) ++ " (" ++
    String.intercalate ", "
      (target_attrs.map (fun a => cql_quote_identifier (attname_at rel a))) ++
    ") VALUES (" ++
    String.intercalate ", " (List.replicate target_attrs.length "?") ++ ")"

/-- Embeds scylla_build_update_query from scylla_deparse.c: a SET
assignment with a placeholder for every target attribute that is not a
primary-key attribute (the C inner loop over the pk_attrs array), followed
by a WHERE equality placeholder for every primary-key attribute in
pk_attrs order. -/
def scylla_build_update_query (rel : RelDesc) (target_attrs : List Nat)
    (pk_attrs : List Nat) : String :=
  "UPDATE " ++ cql_quote_identifier (rel_keyspace rel) ++ "." ++
    cql_quote_identifier (rel_tablename rel) ++ " SET " ++
    String.intercalate ", "
      ((target_attrs.filter (fun a => !pk_attrs.contains a)).map
        (fun a => cql_quote_identifier (attname_at rel a) ++ " = ?")) ++
    " WHERE " ++
    String.intercalate " AND "
      (pk_attrs.map (fun a => cql_quote_identifier (attname_at rel a) ++ " = ?"))

/-- Embeds scylla_build_delete_query from scylla_deparse.c: a WHERE
equality placeholder for every primary-key attribute, in pk_attrs
order. -/
def scylla_build_delete_query (rel : RelDesc) (pk_attrs : List Nat) : String :=
  "DELETE FROM " ++ cql_quote_identifier (rel_keyspace rel) ++ "." ++
    cql_quote_identifier (rel_tablename rel) ++ " WHERE " ++
    String.intercalate " AND "
      (pk_attrs.map (fun a => cql_quote_identifier (attname_at rel a) ++ " = ?"))

/-- The number of positional placeholders in a generated statement. -/
def count_placeholders (s : String) : Nat :=
  s.toList.count '?'

/-- The three ModifyTable operations the planner handles. -/
inductive CmdType where
  | cmdInsert | cmdUpdate | cmdDelete
deriving DecidableEq, Repr

/-- The fdw_private triple scyllaPlanForeignModify returns: generated
statement text, target attribute numbers, operation kind. -/
structure ModifyPlan where
  query : String
  target_attrs : List Nat
  operation : CmdType
deriving DecidableEq, Repr

/-- The INSERT and UPDATE target-attribute loops of
scyllaPlanForeignModify: every non-dropped attribute number, in tuple
descriptor order. -/
def plan_target_attrs_all (rel : RelDesc) : List Nat :=
  (rel.cols.enum.filter (fun p => !p.2.attisdropped)).map (fun p => p.1 + 1)

/-- The primary-key resolution loops of scyllaPlanForeignModify: each
parsed token is resolved to its attribute number by name, tokens matching
no column are silently dropped. -/
def resolve_pk_attrs (rel : RelDesc) (pk_str : String) : List Nat :=
  (parse_pk pk_str).filterMap (findAttnum rel.cols)

/-- Embeds scyllaPlanForeignModify from scylla_fdw_modify.c: target
attributes are collected only for INSERT and UPDATE (the C targetAttrs
stays NIL for DELETE), the primary-key attributes are resolved from the
first primary_key option match for UPDATE and DELETE (absent option means
no key attributes), and the matching builder produces the statement
text. -/
def scyllaPlanForeignModify (rel : RelDesc) (operation : CmdType) : ModifyPlan :=
  match operation with
  | .cmdInsert =>
      let t := plan_target_attrs_all rel
      ⟨scylla_build_insert_query rel t, t, operation⟩
  | .cmdUpdate =>
      let t := plan_target_attrs_all rel
      let pk_attrs :=
        match lookup_option_first rel.options "primary_key" with
        | some s => resolve_pk_attrs rel s
        | none => []
      ⟨scylla_build_update_query rel t pk_attrs, t, operation⟩
  | .cmdDelete =>
      let pk_attrs :=
        match lookup_option_first rel.options "primary_key" with
        | some s => resolve_pk_attrs rel s
        | none => []
      ⟨scylla_build_delete_query rel pk_attrs, [], operation⟩

/-- The parameter binding loop shared by scyllaExecForeignInsert,
scyllaExecForeignUpdate and scyllaExecForeignDelete: for the i-th entry
attnum of target_attrs, slot_getattr fetches (value, isnull) for attnum
and scylla_convert_from_pg binds it at parameter index i with
param_types at i, which scyllaBeginForeignModify set to the type OID of
attnum. -/
def modify_bind_loop (rel : RelDesc) (target_attrs : List Nat)
    (slot : Nat → PgVal × Bool) : List BindAction :=
  target_attrs.enum.map (fun p =>
    scylla_convert_from_pg (slot p.2).1 (atttypid_at rel p.2) p.1 (slot p.2).2)

/-- Embeds the binding phase of scyllaExecForeignUpdate from
scylla_fdw_modify.c: the loop binds a parameter per target attribute from
the new-tuple slot; no further WHERE parameters are bound (the C comment
defers that iteration). -/
def scyllaExecForeignUpdate_binds (rel : RelDesc) (plan : ModifyPlan)
    (slot : Nat → PgVal × Bool) : List BindAction :=
  modify_bind_loop rel plan.target_attrs slot

/-- Embeds the binding phase of scyllaExecForeignDelete from
scylla_fdw_modify.c: the loop binds a parameter per target attribute,
fetching values from the plan slot that carries the junk key columns. -/
def scyllaExecForeignDelete_binds (rel : RelDesc) (plan : ModifyPlan)
    (planSlot : Nat → PgVal × Bool) : List BindAction :=
  modify_bind_loop rel plan.target_attrs planSlot

/-- The plan-time schema failures scyllaAddForeignUpdateTargets can
raise. -/
inductive SchemaError where
  | missingPrimaryKey
  | columnNotFound (colname : String)
deriving DecidableEq, Repr

/-- The junk-column loop of scyllaAddForeignUpdateTargets: resolves each
parsed primary-key token to (name, attnum), failing with the
column-not-found schema error at the first token that names no column of
the relation. -/
def add_update_targets_loop (cols : List PgColumn) :
    List String → Except SchemaError (List (String × Nat))
  | [] => .ok []
  | c :: rest =>
      match findAttnum cols c with
      | none => .error (.columnNotFound c)
      | some att =>
          (add_update_targets_loop cols rest).map (fun l => (c, att) :: l)

/-- Embeds scyllaAddForeignUpdateTargets from scylla_fdw_modify.c: during
planning of an UPDATE or DELETE, the primary_key option is required (its
absence raises a schema error before any connection is made) and every
declared key column must exist in the relation; on success the key
columns are registered as junk attributes. -/
def scyllaAddForeignUpdateTargets (rel : RelDesc) :
    Except SchemaError (List (String × Nat)) :=
  match lookup_option_first rel.options "primary_key" with
  | none => .error .missingPrimaryKey
  | some pk_str => add_update_targets_loop rel.cols (parse_pk pk_str)

/-- Concrete relation for the UPDATE scenario: non-key columns a, b
followed by the declared primary-key columns k1, k2. -/
def c1_rel : RelDesc :=
  ⟨[⟨"a", .int4, false⟩, ⟨"b", .int4, false⟩,
    ⟨"k1", .int4, false⟩, ⟨"k2", .int4, false⟩],
   [("keyspace", "ks"), ("table", "tbl"), ("primary_key", "k1,k2")]⟩

/-- Concrete relation for the DELETE scenario: key column id plus a
payload column, keyspace ks and table tbl. -/
def c5_rel : RelDesc :=
  ⟨[⟨"id", .int4, false⟩, ⟨"val", .text, false⟩],
   [("keyspace", "ks"), ("table", "tbl"), ("primary_key", "id")]⟩

/-- Concrete relation with partition-key columns pk1 and pk2. -/
def c3_rel : RelDesc :=
  ⟨[⟨"pk1", .int4, false⟩, ⟨"pk2", .int4, false⟩, ⟨"x", .int4, false⟩],
   [("keyspace", "ks"), ("table", "tbl")]⟩

/-- Remote equality condition on pk1. -/
def c3_eq_pk1 : PgExpr := .eop true "=" [.evar 1 1 .int4, .econst .int4 false "5"]

/-- Remote equality condition on pk2. -/
def c3_eq_pk2 : PgExpr := .eop true "=" [.evar 1 2 .int4, .econst .int4 false "6"]

/-- Concrete relation whose declared primary key names a column that does
not exist in the relation. -/
def c3_ghost_rel : RelDesc := ⟨[⟨"a", .int4, false⟩], []⟩

/-- Remote equality condition on column a of the ghost-key relation. -/
def c3_eq_a : PgExpr := .eop true "=" [.evar 1 1 .int4, .econst .int4 false "1"]

/-- Relation without a primary_key option. -/
def c8_rel_nopk : RelDesc := ⟨[⟨"id", .int4, false⟩], [("keyspace", "ks")]⟩

/-- Relation whose primary_key option names an absent column. -/
def c8_rel_badpk : RelDesc := ⟨[⟨"id", .int4, false⟩], [("primary_key", "nope")]⟩

/-- C1: for an UPDATE plan over the relation with non-key columns a, b and
declared primary key k1, k2, the generated statement has SET placeholders
for a and b followed by WHERE placeholders for k1 and k2, exactly 4
placeholders in total, and the executor binding loop binds the per-row
values at parameter indexes 0 to 3 in exactly the order a, b, k1, k2. -/
theorem c1_update_placeholder_binding_order :
    (scyllaPlanForeignModify c1_rel .cmdUpdate).query =
      "UPDATE ks.tbl SET a = ?, b = ? WHERE k1 = ? AND k2 = ?" ∧
    count_placeholders (scyllaPlanForeignModify c1_rel .cmdUpdate).query = 4 ∧
    ∀ slot : Nat → PgVal × Bool,
      scyllaExecForeignUpdate_binds c1_rel
          (scyllaPlanForeignModify c1_rel .cmdUpdate) slot =
        [scylla_convert_from_pg (slot 1).1 .int4 0 (slot 1).2,
         scylla_convert_from_pg (slot 2).1 .int4 1 (slot 2).2,
         scylla_convert_from_pg (slot 3).1 .int4 2 (slot 3).2,
         scylla_convert_from_pg (slot 4).1 .int4 3 (slot 4).2] :=
  ⟨by decide, by decide, fun slot => rfl⟩

/-- C5: the DELETE plan for the relation with key id generates exactly the
claimed statement text with one placeholder, but the planner leaves the
target-attribute list empty for DELETE, so the executor binding loop binds
no parameter at all for any row, contradicting the claimed single bound
key value. -/
theorem c5_delete_binds_no_parameter :
    (scyllaPlanForeignModify c5_rel .cmdDelete).query =
      "DELETE FROM ks.tbl WHERE id = ?" ∧
    count_placeholders (scyllaPlanForeignModify c5_rel .cmdDelete).query = 1 ∧
    (scyllaPlanForeignModify c5_rel .cmdDelete).target_attrs = [] ∧
    ∀ planSlot : Nat → PgVal × Bool,
      scyllaExecForeignDelete_binds c5_rel
          (scyllaPlanForeignModify c5_rel .cmdDelete) planSlot = [] :=
  ⟨by decide, by decide, by decide, fun planSlot => rfl⟩

/-- C7: the decimal decode path returns the fixed placeholder string for
every wire value, while the decode the spec requires produces the exact
decimal string; at the one-byte varint 1 with scale 0 the two differ. -/
theorem c7_decimal_decode_placeholder :
    (∀ (varint : List Nat) (scale : Int),
      scylla_get_decimal varint scale = "0") ∧
    spec_decimal_decode [1] 0 = "1" ∧
    scylla_get_decimal [1] 0 ≠ spec_decimal_decode [1] 0 :=
  ⟨fun _ _ => rfl, by decide, by decide⟩

/-- C10: for every relational type and parameter index, encoding a SQL
NULL issues the protocol null binding at that index, before the per-type
dispatch is consulted, so the binding succeeds also for types without a
direct wire mapping. -/
theorem c10_null_binds_null :
    ∀ (value : PgVal) (pg_type : PgType) (index : Nat),
      scylla_convert_from_pg value pg_type index true = .bnull index :=
  fun _ _ _ => rfl

/-- C2 counterexample: the timestamp codec is not an exact inverse pair on
all relational timestamp values; the one-microsecond timestamp is
truncated by the millisecond division of the encode direction. -/
theorem c2_timestamp_roundtrip_counterexample :
    wire_ms_to_pg_timestamp (pg_timestamp_to_wire_ms 1) ≠ 1 := by decide

/-- The epoch offset evaluates to the microseconds between 1970-01-01 and
2000-01-01. -/
theorem epoch_offset_usec_eq : epoch_offset_usec = 946684800000000 := by
  norm_num [epoch_offset_usec, POSTGRES_EPOCH_JDATE, UNIX_EPOCH_JDATE]

/-- C2 amended: decode is a left inverse of encode on every relational
timestamp t that is a whole number of milliseconds and whose shift to the
Unix epoch stays inside signed 64 bits, that is every int64 value t with
1000 dividing t and t + 946684800000000 at most 2 to the 63 minus 1.
Neither restriction can be dropped: the encode direction divides
microseconds by 1000 with truncation, so sub-millisecond values cannot
round-trip (the counterexample above), and near the top of the int64
range the epoch addition of the encode direction wraps, so the
whole-millisecond value 9223000000000000000 comes back as
9223000000000000616 (last conjunct).  Further, encode of the relational
representation of 2000-01-01T00:00:00 (microsecond count 0) is
946684800000 wire milliseconds, and decode of wire 0 is the relational
representation of 1970-01-01T00:00:00, minus the epoch offset in
microseconds. -/
theorem c2_timestamp_codec_inverse_on_milliseconds :
    (∀ t : Int, 1000 ∣ t → -9223372036854775808 ≤ t →
      t + 946684800000000 ≤ 9223372036854775807 →
      wire_ms_to_pg_timestamp (pg_timestamp_to_wire_ms t) = t) ∧
    pg_timestamp_to_wire_ms 0 = 946684800000 ∧
    wire_ms_to_pg_timestamp 0 = -946684800000000 ∧
    wire_ms_to_pg_timestamp (pg_timestamp_to_wire_ms 9223000000000000000) ≠
      9223000000000000000 := by
  refine ⟨?_, by decide, by decide, by decide⟩
  rintro t ⟨k, rfl⟩ hlo hhi
  unfold pg_timestamp_to_wire_ms wire_ms_to_pg_timestamp
  rw [epoch_offset_usec_eq]
  have h1 : wrap64 (1000 * k + 946684800000000) = 1000 * k + 946684800000000 := by
    unfold wrap64; omega
  rw [h1, show 1000 * k + 946684800000000 = 1000 * (k + 946684800000) by ring,
    Int.mul_tdiv_cancel_left _ (by norm_num)]
  unfold wrap64
  omega

/-- Witness for the amended C2 at the whole-millisecond timestamp 5000. -/
theorem c2_timestamp_codec_witness :
    (1000 : Int) ∣ 5000 ∧
    wire_ms_to_pg_timestamp (pg_timestamp_to_wire_ms 5000) = 5000 :=
  ⟨⟨5, by norm_num⟩,
   c2_timestamp_codec_inverse_on_milliseconds.1 5000 ⟨5, by norm_num⟩
     (by norm_num) (by norm_num)⟩

/-- C6: the date codec decode of the biased wire day 2 to the 31 is the
relational day of 1970-01-01 (the Julian-day difference
UNIX_EPOCH_JDATE minus POSTGRES_EPOCH_JDATE, that is minus 10957), the
next wire day decodes to 1970-01-02, and encode reverses both steps:
encode then decode is the identity on the signed 32-bit range and decode
then encode is the identity on the unsigned 32-bit wire range. -/
theorem c6_date_codec_bias_and_offset :
    wire_date_to_pg_date 2147483648 = UNIX_EPOCH_JDATE - POSTGRES_EPOCH_JDATE ∧
    wire_date_to_pg_date 2147483649 =
      UNIX_EPOCH_JDATE - POSTGRES_EPOCH_JDATE + 1 ∧
    (∀ w : Int, 0 ≤ w → w < 4294967296 →
      pg_date_to_wire (wire_date_to_pg_date w) = w) ∧
    (∀ d : Int, -2147483648 ≤ d → d < 2147483648 →
      wire_date_to_pg_date (pg_date_to_wire d) = d) := by
  refine ⟨by decide, by decide, ?_, ?_⟩
  · intro w h1 h2
    unfold pg_date_to_wire wire_date_to_pg_date epoch_offset_days
      POSTGRES_EPOCH_JDATE UNIX_EPOCH_JDATE c_one_shl_31 wrap32
    omega
  · intro d h1 h2
    unfold pg_date_to_wire wire_date_to_pg_date epoch_offset_days
      POSTGRES_EPOCH_JDATE UNIX_EPOCH_JDATE c_one_shl_31 wrap32
    omega

/-- Witness for C6 at the wire day of the Unix epoch and the relational
day 0 (2000-01-01). -/
theorem c6_date_codec_witness :
    (0 : Int) ≤ 2147483648 ∧
    pg_date_to_wire (wire_date_to_pg_date 2147483648) = 2147483648 ∧
    wire_date_to_pg_date (pg_date_to_wire 0) = 0 :=
  ⟨by norm_num,
   c6_date_codec_bias_and_offset.2.2.1 2147483648 (by norm_num) (by norm_num),
   c6_date_codec_bias_and_offset.2.2.2 0 (by norm_num) (by norm_num)⟩

/-- The junk-column loop fails with a column-not-found error whenever some
token of its input list resolves to no column. -/
theorem add_update_targets_loop_error (cols : List PgColumn)
    (l : List String) (tok : String) (hmem : tok ∈ l)
    (hnone : findAttnum cols tok = none) :
    ∃ c, add_update_targets_loop cols l = .error (.columnNotFound c) := by
  induction l with
  | nil => cases hmem
  | cons c0 rest ih =>
      cases hfa : findAttnum cols c0 with
      | none => exact ⟨c0, by simp [add_update_targets_loop, hfa]⟩
      | some att =>
          have htok : tok ∈ rest := by
            rcases List.mem_cons.mp hmem with h | h
            · subst h; rw [hfa] at hnone; cases hnone
            · exact h
          obtain ⟨c1, hc1⟩ := ih htok
          exact ⟨c1, by simp [add_update_targets_loop, hfa, hc1, Except.map]⟩

/-- C8: planning an UPDATE or DELETE registers the primary-key columns as
junk attributes via scyllaAddForeignUpdateTargets, which fails with a
schema error when the relation declares no primary_key option, and with a
column-not-found schema error when a declared key column is absent from
the relation; both failures are raised during planning, in code that never
touches a connection (connections are only opened later by
scyllaBeginForeignModify). -/
theorem c8_update_delete_plan_requires_key :
    ∀ rel : RelDesc,
      (lookup_option_first rel.options "primary_key" = none →
        scyllaAddForeignUpdateTargets rel = .error .missingPrimaryKey) ∧
      (∀ pk tok, lookup_option_first rel.options "primary_key" = some pk →
        tok ∈ parse_pk pk → findAttnum rel.cols tok = none →
        ∃ c, scyllaAddForeignUpdateTargets rel =
          .error (.columnNotFound c)) := by
  intro rel
  constructor
  · intro h
    unfold scyllaAddForeignUpdateTargets
    rw [h]
  · intro pk tok hpk hmem hnone
    unfold scyllaAddForeignUpdateTargets
    rw [hpk]
    exact add_update_targets_loop_error rel.cols (parse_pk pk) tok hmem hnone

/-- Witness for C8: a relation with no primary_key option errors with the
missing-key schema error, and a relation whose key names an absent column
errors with a column-not-found schema error. -/
theorem c8_update_delete_plan_requires_key_witness :
    scyllaAddForeignUpdateTargets c8_rel_nopk = .error .missingPrimaryKey ∧
    ∃ c, scyllaAddForeignUpdateTargets c8_rel_badpk =
      .error (.columnNotFound c) :=
  ⟨(c8_update_delete_plan_requires_key c8_rel_nopk).1 (by decide),
   (c8_update_delete_plan_requires_key c8_rel_badpk).2 "nope" "nope"
     (by decide) (by decide) (by decide)⟩

/-- C4: a single equality comparison between a pushdown-safe column of the
target relation and a pushdown-safe non-null literal is classified remote;
the same comparison wrapped in an OR with any other predicate makes the
whole disjunction local, unsplit; and top-level conjuncts are classified
independently, each by its own scylla_is_foreign_expr verdict. -/
theorem c4_classify_equality_and_or :
    ∀ (relids : List Nat) (varno : Nat) (attno : Int) (vty cty : PgType)
      (v : String),
      relids.contains varno = true → 0 < attno →
      is_pushdown_safe_type vty = true → is_pushdown_safe_type cty = true →
      (scylla_classify_conditions relids
          [.eop true "=" [.evar varno attno vty, .econst cty false v]] =
        ([.eop true "=" [.evar varno attno vty, .econst cty false v]], []) ∧
       (∀ q : PgExpr, scylla_classify_conditions relids
          [.ebool .orOp
            [.eop true "=" [.evar varno attno vty, .econst cty false v], q]] =
        ([], [.ebool .orOp
          [.eop true "=" [.evar varno attno vty, .econst cty false v], q]])) ∧
       (∀ conds : List PgExpr, scylla_classify_conditions relids conds =
          (conds.filter (scylla_is_foreign_expr relids),
           conds.filter (fun c => !scylla_is_foreign_expr relids c)))) := by
  intro relids varno attno vty cty v h1 h2 h3 h4
  have h1m : varno ∈ relids := by simpa using h1
  have hfe : scylla_is_foreign_expr relids
      (.eop true "=" [.evar varno attno vty, .econst cty false v]) = true := by
    simp [scylla_is_foreign_expr, scylla_is_foreign_expr_all,
      get_cql_operator, h1m, h2, h3, h4]
  have hor : ∀ q : PgExpr, scylla_is_foreign_expr relids
      (.ebool .orOp
        [.eop true "=" [.evar varno attno vty, .econst cty false v], q]) =
        false := by
    intro q
    simp [scylla_is_foreign_expr]
  refine ⟨by simp [scylla_classify_conditions, hfe], ?_, ?_⟩
  · intro q
    simp [scylla_classify_conditions, hor q]
  · intro conds
    induction conds with
    | nil => rfl
    | cons c cs ih =>
        by_cases h : scylla_is_foreign_expr relids c = true
        · simp [scylla_classify_conditions, h, ih, List.filter_cons]
        · have h0 : scylla_is_foreign_expr relids c = false :=
            Bool.eq_false_iff.mpr h
          simp [scylla_classify_conditions, h0, ih, List.filter_cons]

/-- Witness for C4 at a concrete equality comparison on attribute 1 of
relation 1 with an int4 literal. -/
theorem c4_classify_equality_witness :
    ([1].contains 1 = true) ∧ ((0 : Int) < 1) ∧
    scylla_classify_conditions [1]
        [.eop true "=" [.evar 1 1 .int4, .econst .int4 false "5"]] =
      ([.eop true "=" [.evar 1 1 .int4, .econst .int4 false "5"]], []) :=
  ⟨by decide, by decide,
   (c4_classify_equality_and_or [1] 1 1 .int4 .int4 "5"
     (by decide) (by decide) (by decide) (by decide)).1⟩

theorem any_not_eq_not_all (l : List Char) (p : Char → Bool) :
    (l.any fun c => !p c) = !l.all p := by
  induction l with
  | nil => rfl
  | cons c rest ih => cases hp : p c <;> simp [hp, ih]

theorem escape_dquotes_length (cs : List Char) :
    cs.length ≤ (escape_dquotes cs).length := by
  induction cs with
  | nil => exact Nat.le_refl 0
  | cons c rest ih =>
      by_cases h : c = '"'
      · simp [escape_dquotes, h]; omega
      · simp [escape_dquotes, h]; omega

theorem escape_dquotes_nil_iff (cs : List Char) :
    escape_dquotes cs = [] ↔ cs = [] := by
  cases cs with
  | nil => simp [escape_dquotes]
  | cons c rest =>
      by_cases h : c = '"' <;> simp [escape_dquotes, h]

theorem undouble_escape (cs : List Char) :
    undouble_dquotes (escape_dquotes cs) = some cs := by
  induction cs with
  | nil => rfl
  | cons c rest ih =>
      by_cases h : c = '"'
      · subst h
        simp [escape_dquotes, undouble_dquotes, ih]
      · rcases he : escape_dquotes rest with _ | ⟨d, ds⟩
        · have : rest = [] := (escape_dquotes_nil_iff rest).mp he
          subst this
          simp [escape_dquotes, undouble_dquotes, h]
        · rw [he] at ih
          simp [escape_dquotes, undouble_dquotes, h, he, ih]

theorem lower_imp_ident (c : Char) (h : is_lower_or_underscore c = true) :
    is_unquoted_ident_char c = true := by
  simp [is_lower_or_underscore] at h
  simp [is_unquoted_ident_char]
  tauto

theorem needs_quotes_eq_not_regex (s : String) :
    cql_ident_needs_quotes s.toList = !(spec_ident_regex s) := by
  rcases h : s.data with _ | ⟨c, rest⟩
  · simp [cql_ident_needs_quotes, spec_ident_regex, String.toList, h]
  · by_cases hl : is_lower_or_underscore c = true
    · simp [cql_ident_needs_quotes, spec_ident_regex, String.toList, h, hl,
        lower_imp_ident c hl, any_not_eq_not_all]
    · have hl0 : is_lower_or_underscore c = false := Bool.eq_false_iff.mpr hl
      simp [cql_ident_needs_quotes, spec_ident_regex, String.toList, h, hl0]

theorem c9_quote_identifier_inverse :
    ∀ s : String,
      (cql_quote_identifier s = s ↔ spec_ident_regex s = true) ∧
      (cql_ident_needs_quotes s.toList = true →
        parse_quoted_identifier (cql_quote_identifier s) = some s) := by
  intro s
  constructor
  · constructor
    · intro heq
      by_cases hq : cql_ident_needs_quotes s.toList = true
      · exfalso
        have hqd : cql_ident_needs_quotes s.data = true := hq
        have h2 : cql_quote_identifier s =
            String.mk ('"' :: (escape_dquotes s.toList ++ ['"'])) := by
          simp [cql_quote_identifier, hqd]
        rw [h2] at heq
        have h3 : '"' :: (escape_dquotes s.toList ++ ['"']) = s.data :=
          congrArg String.data heq
        have h4 := congrArg List.length h3
        simp at h4
        have h5 := escape_dquotes_length s.toList
        simp [String.toList] at h5
        omega
      · have h6 : cql_ident_needs_quotes s.toList = false :=
          Bool.eq_false_iff.mpr hq
        rw [needs_quotes_eq_not_regex] at h6
        simpa using h6
    · intro hreg
      have hq : cql_ident_needs_quotes s.toList = false := by
        rw [needs_quotes_eq_not_regex, hreg]
        rfl
      have hqd : cql_ident_needs_quotes s.data = false := hq
      simp [cql_quote_identifier, hqd]
  · intro hq
    have hqd : cql_ident_needs_quotes s.data = true := hq
    have h2 : cql_quote_identifier s =
        String.mk ('"' :: (escape_dquotes s.toList ++ ['"'])) := by
      simp [cql_quote_identifier, hqd]
    rw [h2]
    unfold parse_quoted_identifier
    simp [String.toList, undouble_escape]

theorem c9_quote_identifier_inverse_witness :
    cql_ident_needs_quotes ("A b".toList) = true ∧
    parse_quoted_identifier (cql_quote_identifier "A b") = some "A b" :=
  ⟨by decide, (c9_quote_identifier_inverse "A b").2 (by decide)⟩

theorem c3_allow_filtering_counterexample :
    spec_allow_filtering_required c3_ghost_rel (some "ghost") [c3_eq_a] = true ∧
    needs_allow_filtering [1] c3_ghost_rel (some "ghost") [c3_eq_a] = false :=
  ⟨by decide, by decide⟩

theorem allow_filter_token_false_iff (rel : RelDesc) (relids : List Nat)
    (remote : List PgExpr) (tok : String) :
    ((match findAttnum rel.cols tok with
      | none => true
      | some att => remote.any (pk_cond_matches relids att)) = false ↔
     ∃ att, findAttnum rel.cols tok = some att ∧
       ∀ e ∈ remote, pk_cond_matches relids att e = false) := by
  cases hfa : findAttnum rel.cols tok with
  | none => simp [hfa]
  | some att => simp [hfa]

theorem c3_amended_allow_filtering :
    (∀ (relids : List Nat) (rel : RelDesc) (pk_str : Option String)
        (remote : List PgExpr),
      needs_allow_filtering relids rel pk_str remote = true ↔
        (remote = [] ∨ pk_str = none ∨ pk_str = some "" ∨
         ∃ s, pk_str = some s ∧ ∃ tok ∈ parse_pk s, ∃ att,
           findAttnum rel.cols tok = some att ∧
           ∀ e ∈ remote, pk_cond_matches relids att e = false)) ∧
    needs_allow_filtering [1] c3_rel (some "pk1,pk2") [c3_eq_pk1] = true ∧
    needs_allow_filtering [1] c3_rel (some "pk1,pk2") [c3_eq_pk1, c3_eq_pk2] =
      false := by
  refine ⟨?_, by decide, by decide⟩
  intro relids rel pk_str remote
  unfold needs_allow_filtering
  by_cases hrem : remote = []
  · subst hrem
    simp
  · have hne : remote.isEmpty = false := by
      simp [List.isEmpty_iff, hrem]
    simp only [hne, Bool.false_eq_true, if_false]
    cases pk_str with
    | none => simp [hrem]
    | some s =>
        by_cases hs : s = ""
        · subst hs
          simp [hrem]
        · simp only [hs, if_false, hrem, false_or, Option.some.injEq]
          constructor
          · intro h
            have h2 : ∃ tok ∈ parse_pk s,
                (match findAttnum rel.cols tok with
                 | none => true
                 | some att => remote.any (pk_cond_matches relids att)) =
                  false := by
              simpa using h
            obtain ⟨tok, hmem, hf⟩ := h2
            obtain ⟨att, hfa, hall⟩ :=
              (allow_filter_token_false_iff rel relids remote tok).mp hf
            exact Or.inr ⟨s, rfl, tok, hmem, att, hfa, hall⟩
          · rintro (h | ⟨s2, hs2, tok, hmem, att, hfa, hall⟩)
            · exact absurd h (by simp)
            cases hs2
            have hf := (allow_filter_token_false_iff rel relids remote tok).mpr
              ⟨att, hfa, hall⟩
            simp only [Bool.not_eq_true']
            simp only [List.all_eq_false]
            exact ⟨tok, hmem, by simp [hf]⟩
